import Mathlib

/-!
Shallow embedding of `xmlmapper/xmlmapper.py` (class `XMLMapper`).

The XML/XPath layer (`lxml.etree`) is an external dependency of the program;
it is modelled at its boundary: a compiled path expression is an abstract
function from a context element to a path-resolver result (`XResult`), and a
document is represented by its root `Element`.  Everything else — the
specification compiler (`_compile_mapping`, `_compile_query`), the value
resolver (`_XPathQuery.run`, `_get_string`, `_VALUE_TYPES`), the identity
registry (`_State`) and the execution engine (`_load_mapping`, `load_file`) —
is translated directly from the source.

General recursion over nested mappings is expressed with an explicit fuel
parameter (structural on `Nat`) so that all definitions are kernel-reducible;
fuel is consumed only when descending into a nested mapping, and compiled
mappings carry their nesting depth so the entry points can supply enough fuel.
-/

/-- An XML element as seen by the mapper: its tag, 1-based source line
(`lxml` sourceline), and its text content (`.text`, which is `None` for an
empty element). -/
structure Element where
  tag : String
  sourceline : Nat
  text : Option String
deriving DecidableEq

/-- One item of an XPath node-set result: an element node (which has `.text`)
or a plain string (attribute value or string result; `smart_strings=False`). -/
inductive XNode where
  | elem (e : Element)
  | sv (s : String)
deriving DecidableEq

/-- The result of evaluating a compiled XPath expression against a context
element: a node-set (a Python list), or a non-list scalar — a computed
boolean or a computed string.  (Float-valued XPath results such as `count()`
are outside the model.) -/
inductive XResult where
  | nodeset (l : List XNode)
  | scalarB (b : Bool)
  | scalarS (s : String)
deriving DecidableEq

/-- A value produced by the mapper: either a scalar (null / string / int /
float / bool), an object created by the object factory (modelled canonically
as its type name together with the public field map it was created from), or
a list of values (from a list-wrapped nested mapping). -/
inductive Value where
  | null
  | str (s : String)
  | int (n : Int)
  | float (q : Rat)
  | bool (b : Bool)
  | objv (typeName : String) (fields : List (String × Value))
  | vlist (elems : List Value)

/-- Kinds of runtime (`XMLMapperLoadingError`) failures, as structured data.
`outOfFuel` is the fuel-exhaustion sentinel of the embedding; it corresponds
to no program behaviour and is unreachable when enough fuel is supplied. -/
inductive LoadErrKind where
  | outOfFuel
  | nullId (objType : String)
  | duplicateId (objType objId : String)
  | undefinedRef (objType : String) (objId : Option String)
  | multipleElements
  | invalidLiteral (kind text : String)
  | nestedMultiple (count : Nat)
deriving DecidableEq

/-- A runtime loading error: its kind plus the tag and source line of the
element whose attributes were being processed (`XMLMapperLoadingError`). -/
structure LoadErr where
  kind : LoadErrKind
  elementTag : String
  sourceLine : Nat
deriving DecidableEq

/-- Builds an `XMLMapperLoadingError` from the element it is reported
against. -/
def mkErr (el : Element) (k : LoadErrKind) : LoadErr :=
  ⟨k, el.tag, el.sourceline⟩

/-- Kinds of compile-time (`XMLMapperSyntaxError`) failures, as structured
data.  `outOfFuel` is the embedding's fuel sentinel (unreachable with enough
fuel). -/
inductive SynErr where
  | outOfFuel
  | missingType
  | typeNotString
  | missingMatch (mtype : String)
  | duplicateType (mtype : String)
  | matchNotString (mtype : String)
  | invalidFieldSpec (attr mtype : String)
  | unknownValueType (qtype attr mtype : String)
  | invalidReferenceType (qtype attr mtype : String)
  | idNotString (mtype : String)
deriving DecidableEq

/-- First-match association-list lookup (Python dict lookup; raw mapping
dicts and the type index have unique keys in any run of the program). -/
def lookupAssoc {κ α : Type} [DecidableEq κ] : List (κ × α) → κ → Option α
  | [], _ => none
  | (k, v) :: r, q => if k = q then some v else lookupAssoc r q

/-- Python-dict style insert: overwriting an existing key keeps its original
position; a new key is appended at the end. -/
def updateAssoc {κ α : Type} [DecidableEq κ] : List (κ × α) → κ → α → List (κ × α)
  | [], q, a => [(q, a)]
  | (k, v) :: r, q, a => if k = q then (q, a) :: r else (k, v) :: updateAssoc r q a

/-- Value of an all-digit character list, most significant first. -/
def digitsVal (l : List Char) : Nat :=
  l.foldl (fun a c => 10 * a + (c.toNat - 48)) 0

/-- Digit-string to number; `none` when empty or a non-digit occurs.
Models the core of CPython `int(str)` on an already-stripped string
(underscore digit grouping and non-ASCII digits are outside the model). -/
def natOfDigits (l : List Char) : Option Nat :=
  if l ≠ [] ∧ l.all Char.isDigit then some (digitsVal l) else none

/-- Python `int(s)` on a stripped string: optional sign then decimal digits;
`none` models `ValueError`. -/
def pyParseInt (s : String) : Option Int :=
  match s.toList with
  | '+' :: ds => (natOfDigits ds).map Int.ofNat
  | '-' :: ds => (natOfDigits ds).map (fun n => -(n : Int))
  | ds => (natOfDigits ds).map Int.ofNat

/-- Python `float(s)` on a stripped string, restricted to plain decimal
literals: an optional sign, then digits with an optional decimal point
carrying digits on at least one side.  Exponents, `inf` and `nan` are outside
the model.  The result is exact: a signed mantissa together with its
power-of-ten denominator, e.g. `"12.3" ↦ (123, 10)`; `none` models
`ValueError`. -/
def pyParseFloatParts (s : String) : Option (Int × Nat) :=
  match s.toList with
  | '+' :: ds => (core ds).map (fun p => ((p.1 : Int), p.2))
  | '-' :: ds => (core ds).map (fun p => (-(p.1 : Int), p.2))
  | ds => (core ds).map (fun p => ((p.1 : Int), p.2))
where
  core (ds : List Char) : Option (Nat × Nat) :=
    let ip := ds.takeWhile Char.isDigit
    match ds.dropWhile Char.isDigit with
    | [] => if ip = [] then none else some (digitsVal ip, 1)
    | '.' :: fp =>
      if fp.all Char.isDigit ∧ (ip ≠ [] ∨ fp ≠ []) then
        some (digitsVal (ip ++ fp), 10 ^ fp.length)
      else none
    | _ => none

/-- The rational value denoted by a parsed float. -/
def pyParseFloat (s : String) : Option Rat :=
  (pyParseFloatParts s).map (fun p => (p.1 : Rat) / (p.2 : Rat))

/-- Lower-cases an ASCII letter (Python `str.lower` restricted to ASCII,
which covers every string the mapper compares). -/
def lowerChar (c : Char) : Char :=
  if 'A' ≤ c ∧ c ≤ 'Z' then Char.ofNat (c.toNat + 32) else c

/-- Python `str.lower` (ASCII). -/
def pyLower (s : String) : String := ⟨s.toList.map lowerChar⟩

/-- Python whitespace for `str.strip` (ASCII part). -/
def isPySpace (c : Char) : Bool :=
  c = ' ' ∨ c = '\t' ∨ c = '\n' ∨ c = '\r' ∨ c = '\x0b' ∨ c = '\x0c'

/-- Python `str.strip()`: removes leading and trailing whitespace. -/
def pyStrip (s : String) : String :=
  ⟨(s.toList.dropWhile isPySpace).reverse.dropWhile isPySpace |>.reverse⟩

/-- Python `str.startswith('_')`, used to separate internal attributes. -/
def startsWithUnderscore (s : String) : Bool :=
  match s.toList with
  | c :: _ => c = '_'
  | [] => false

/-- Code-point lexicographic comparison of char lists (Python `str <`). -/
def charListLt : List Char → List Char → Bool
  | [], [] => false
  | [], _ :: _ => true
  | _ :: _, [] => false
  | a :: as, b :: bs => if a < b then true else if b < a then false else charListLt as bs

/-- Python string `<`, as used by `sorted(mapping.keys())`. -/
def keyLt (a b : String) : Bool := charListLt a.toList b.toList

/-- The built-in value-type names, i.e. the keys of
`XMLMapper._VALUE_TYPES`. -/
def builtinKinds : List String := ["string", "int", "float", "bool"]

/-- Applies the `_VALUE_TYPES` conversion named `vt` to a collapsed (non-null)
string `s`; `none` models `ValueError`.  The `bool` conversion
`lambda v: v is True or v.lower() == 'true'` never raises: on the string it
receives it amounts to `v.lower() == 'true'`. -/
def convertBuiltin (vt : String) (s : String) : Option Value :=
  if vt = "int" then (pyParseInt s).map Value.int
  else if vt = "float" then (pyParseFloat s).map Value.float
  else if vt = "bool" then some (Value.bool (pyLower s = "true"))
  else if vt = "string" then some (Value.str s)
  else none

example : pyParseInt "123" = some 123 := by decide
example : pyParseInt "-45" = some (-45) := by decide
example : pyParseInt "12.3" = none := by decide
example : pyParseInt "None" = none := by decide
example : pyParseFloatParts "12.3" = some (123, 10) := by decide
example : pyParseFloatParts "abc" = none := by decide
example : pyParseFloat "12.3" = some (123 / 10 : Rat) := by
  have h : pyParseFloatParts "12.3" = some (123, 10) := by decide
  simp [pyParseFloat, h]
example : convertBuiltin "bool" "FALSE" = some (Value.bool false) := rfl
example : convertBuiltin "bool" "true" = some (Value.bool true) := rfl

/-- An abstract compiled-XPath evaluator: `etree.XPath(expr)` applied to a
context element.  The path resolver is an external dependency; the engine
only consumes results of this shape. -/
abbrev XPathFn : Type := Element → XResult

/-- An abstract path compiler (`XMLMapper._compile_xpath`). -/
abbrev PathCompiler : Type := String → XPathFn

/-- A compiled field query (`XMLMapper._Query` subclasses).

`xpathQ attr valueType xpath` is an `_XPathQuery` (a `"[type: ]xpath"`
attribute); `mappingQ attr mappingType matchf hasId returnsList depth
compiled` is a `_MappingQuery` — used both for top-level mappings
(`attr = none`) and nested ones (`attr = some fieldName`).  `depth` is the
embedding's fuel bookkeeping: 1 + the maximum depth of the sub-queries. -/
inductive CQuery where
  | xpathQ (attr : String) (valueType : String) (xpath : XPathFn)
  | mappingQ (attr : Option String) (mappingType : String) (matchf : Element → List Element)
      (hasId : Bool) (returnsList : Bool) (depth : Nat) (compiled : List CQuery)

/-- Fuel needed to execute a query: 1 for a plain xpath query, the recorded
depth for a mapping query. -/
def qdepth : CQuery → Nat
  | .xpathQ _ _ _ => 1
  | .mappingQ _ _ _ _ _ d _ => d

/-- The attribute name a query stores its value under (`query.attr`);
top-level mappings (`attr = none`) are never run as field queries. -/
def qattr : CQuery → String
  | .xpathQ a _ _ => a
  | .mappingQ a _ _ _ _ _ _ => a.getD ""

/-- The identity registry (`XMLMapper._State`): loaded objects indexed by
`(type name, id)`; entries are appended in registration order. -/
structure LState where
  objects : List ((String × String) × Value)

/-- The registered filter functions (`XMLMapper._filters`): each maps the
collapsed value (null or string) to an arbitrary value. -/
abbrev Filters : Type := List (String × (Option String → Value))

/-- Renders one node-set item to text, as `_get_string` does: an element
contributes `six.text_type(element.text)` — which is the four-character
string `"None"` when the text is null — and an attribute/string result is
itself. -/
def renderNode : XNode → String
  | .elem e => match e.text with
    | some t => t
    | none => "None"
  | .sv s => s

/-- `_XPathQuery._get_string`: collapse an XPath result to at most one
string.  An empty node-set gives `None`; a node-set with more than one item
raises a loading error against the matched element; otherwise the single
item (or the non-list scalar, rendered with `six.text_type`) is stripped of
surrounding whitespace. -/
def getString (element : Element) (value : XResult) : Except LoadErr (Option String) :=
  match value with
  | .nodeset [] => .ok none
  | .nodeset [x] => .ok (some (pyStrip (renderNode x)))
  | .nodeset (_ :: _ :: _) => .error (mkErr element .multipleElements)
  | .scalarB b => .ok (some (pyStrip (if b then "True" else "False")))
  | .scalarS s => .ok (some (pyStrip s))

/-- `_State.get_object`: resolve a reference; a `(type, id)` pair that was
never registered raises `Referenced undefined ... object`. -/
def getObject (st : LState) (element : Element) (objType : String) (objId : Option String) :
    Except LoadErr Value :=
  match objId with
  | none => .error (mkErr element (.undefinedRef objType none))
  | some i =>
    match lookupAssoc st.objects (objType, i) with
    | some o => .ok o
    | none => .error (mkErr element (.undefinedRef objType (some i)))

/-- `_State.add_object`: register a loaded object under `(type, id)`;
a null id or an already-registered pair raises a loading error. -/
def addObject (st : LState) (element : Element) (objType : String) (objId : Option String)
    (obj : Value) : Except LoadErr LState :=
  match objId with
  | none => .error (mkErr element (.nullId objType))
  | some i =>
    match lookupAssoc st.objects (objType, i) with
    | some _ => .error (mkErr element (.duplicateId objType i))
    | none => .ok ⟨st.objects ++ [((objType, i), obj)]⟩

/-- Lifts a collapsed string to a value (`str_value` returned by the
`string` kind). -/
def optToValue : Option String → Value
  | none => .null
  | some s => .str s

/-- `_XPathQuery.run`: evaluate the compiled xpath, collapse the result, and
dispatch on the value type in source order — `string` first, then the other
built-ins of `_VALUE_TYPES` (with a null guard and `InvalidLiteralError` on
parse failure), then registered filters (no null guard), and otherwise a
reference lookup in the identity registry. -/
def xpathRun (flt : Filters) (valueType : String) (xpath : XPathFn) (st : LState)
    (element : Element) : Except LoadErr Value :=
  match getString element (xpath element) with
  | .error e => .error e
  | .ok strValue =>
    if valueType = "string" then .ok (optToValue strValue)
    else if builtinKinds.contains valueType then
      match strValue with
      | none => .ok .null
      | some s =>
        match convertBuiltin valueType s with
        | some v => .ok v
        | none => .error (mkErr element (.invalidLiteral valueType s))
    else
      match lookupAssoc flt valueType with
      | some f => .ok (f strValue)
      | none => getObject st element valueType strValue

/-- The type of the recursive engine entry: run one field query against a
matched element, threading the registry and the flat result accumulator. -/
abbrev EngineFn : Type :=
  CQuery → LState → List Value → Element → Except LoadErr (Value × LState × List Value)

/-- The `for query in mapping.compiled` loop body of `_load_mapping`:
runs each field query in compiled (field-name) order, splitting resolved
values into internal (`_`-prefixed) and public data. -/
def runQueriesGo (runQ : EngineFn) :
    List CQuery → Element → LState → List Value →
    List (String × Value) → List (String × Value) →
    Except LoadErr (List (String × Value) × List (String × Value) × LState × List Value)
  | [], _, st, acc, internal, data => .ok (internal, data, st, acc)
  | q :: rest, el, st, acc, internal, data =>
    match runQ q st acc el with
    | .error e => .error e
    | .ok (v, st1, acc1) =>
      if startsWithUnderscore (qattr q) then
        runQueriesGo runQ rest el st1 acc1 (internal ++ [(qattr q, v)]) data
      else
        runQueriesGo runQ rest el st1 acc1 internal (data ++ [(qattr q, v)])

/-- The `_id` value collected in `internal_data`, as the optional string
`add_object` receives (the `_id` query is compiled with the `string` kind,
so its value is null or a string). -/
def idOf (internal : List (String × Value)) : Option String :=
  match lookupAssoc internal "_id" with
  | some (.str s) => some s
  | _ => none

/-- The `for match_el in mapping.match(element)` loop of `_load_mapping`:
for each matched element, resolve all field queries, construct the object
from the public fields, append it to the per-level list and the flat result
accumulator, and register it in the identity registry when the mapping has
an `_id`. -/
def runMatchesGo (runQ : EngineFn) (mappingType : String) (hasId : Bool) (qs : List CQuery) :
    List Element → LState → List Value → List Value →
    Except LoadErr (List Value × LState × List Value)
  | [], st, acc, objs => .ok (objs, st, acc)
  | e :: rest, st, acc, objs =>
    match runQueriesGo runQ qs e st acc [] [] with
    | .error err => .error err
    | .ok (internal, data, st1, acc1) =>
      let obj := Value.objv mappingType data
      let acc2 := acc1 ++ [obj]
      if hasId then
        match addObject st1 e mappingType (idOf internal) obj with
        | .error err => .error err
        | .ok st2 => runMatchesGo runQ mappingType hasId qs rest st2 acc2 (objs ++ [obj])
      else
        runMatchesGo runQ mappingType hasId qs rest st1 acc2 (objs ++ [obj])

/-- The return-shape step at the end of `_load_mapping`: a list-returning
mapping returns all objects produced at this level; otherwise zero matches
give null, one match gives the single object, and more than one raises a
loading error reported against the context element. -/
def shapeResult (element : Element) (returnsList : Bool) (objs : List Value) :
    Except LoadErr Value :=
  if returnsList then .ok (.vlist objs)
  else
    match objs with
    | [] => .ok .null
    | [o] => .ok o
    | _ => .error (mkErr element (.nestedMultiple objs.length))

/-- `XMLMapper._load_mapping` with its recursive engine supplied for the
strictly smaller fuel. -/
def loadMappingF (runQ : EngineFn) (mappingType : String) (matchf : Element → List Element)
    (hasId returnsList : Bool) (qs : List CQuery) (st : LState) (acc : List Value)
    (element : Element) : Except LoadErr (Value × LState × List Value) :=
  match runMatchesGo runQ mappingType hasId qs (matchf element) st acc [] with
  | .error e => .error e
  | .ok (objs, st1, acc1) =>
    match shapeResult element returnsList objs with
    | .error e => .error e
    | .ok v => .ok (v, st1, acc1)

/-- The execution engine: runs one compiled query with the given fuel.
`_XPathQuery.run` consumes no fuel beyond the call itself; `_MappingQuery.run`
recurses into `_load_mapping` with one unit less.  Exhausted fuel yields the
(unreachable, given depth-sized fuel) sentinel. -/
def engineQ (flt : Filters) : Nat → EngineFn
  | 0, _, _, _, el => .error (mkErr el .outOfFuel)
  | _ + 1, .xpathQ _ vt xp, st, acc, el =>
    match xpathRun flt vt xp st el with
    | .error e => .error e
    | .ok v => .ok (v, st, acc)
  | fuel + 1, .mappingQ _ mtype matchf hasId returnsList _ qs, st, acc, el =>
    loadMappingF (engineQ flt fuel) mtype matchf hasId returnsList qs st acc el

/-- The `for mapping in self._mappings` loop of `load_file`: top-level
mappings run in specification order against the document root, threading one
registry and one flat accumulator; per-mapping return shapes are discarded
and the flat accumulator is the final result. -/
def loadMappings (flt : Filters) :
    List CQuery → LState → List Value → Element → Except LoadErr (List Value)
  | [], _, acc, _ => .ok acc
  | m :: rest, st, acc, root =>
    match engineQ flt (qdepth m) m st acc root with
    | .error e => .error e
    | .ok (_, st1, acc1) => loadMappings flt rest st1 acc1 root

/-- A compiled mapper instance: its registered filters and the compiled
top-level mappings (`XMLMapper.__init__` output relevant to loading). -/
structure Mapper where
  filters : Filters
  mappings : List CQuery

/-- `XMLMapper.load_file` (and `load`, which differs only in parsing): a
fresh empty identity registry and a fresh empty result accumulator are
created for this call, every top-level mapping is executed against the
document root, and the flat accumulator is returned. -/
def Mapper.load (mp : Mapper) (root : Element) : Except LoadErr (List Value) :=
  loadMappings mp.filters mp.mappings ⟨[]⟩ [] root

/-- A raw specification value, i.e. a Python value appearing in a mapping
dict: a string (attribute query), a nested dict (nested mapping), a list, or
any other Python value (`other`).  A raw mapping is its dict, as an
association list with unique keys. -/
inductive RawValue where
  | str (s : String)
  | dict (fields : List (String × RawValue))
  | list (elems : List RawValue)
  | other

/-- A raw mapping spec (a Python dict). -/
abbrev RawMapping : Type := List (String × RawValue)

/-- The compile-time type index `XMLMapper._types`, restricted to what the
compiler consults: for each registered type name, whether it declares
`_id` (`has_id`). -/
abbrev TyIdx : Type := List (String × Bool)

/-- `XMLMapper._RX_QUERY` applied by `_compile_query`:
`(?:(?P<type>\w+)\s*:\s*)?(?P<xpath>.*)`.  The optional group matches when a
maximal nonempty word-character prefix is followed by optional whitespace and
a colon; otherwise the whole string is the xpath.  (The regex `.*` stops at a
newline; query strings containing newlines are outside the model.) -/
def parseQuery (q : String) : Option String × String :=
  let w := q.toList.takeWhile fun c => c.isAlphanum ∨ c = '_'
  let rest := q.toList.dropWhile fun c => c.isAlphanum ∨ c = '_'
  if w = [] then (none, q)
  else
    match rest.dropWhile isPySpace with
    | ':' :: tail => (some ⟨w⟩, ⟨tail.dropWhile isPySpace⟩)
    | _ => (none, q)

/-- Turns the abstract compiled xpath into the element iterator that
`_load_mapping` uses for `mapping.match(element)`: the element nodes of a
node-set result.  (Iterating a non-node or scalar result is outside the
model.) -/
def compileMatch (pc : PathCompiler) (expr : String) : Element → List Element :=
  fun el =>
    match pc expr el with
    | .nodeset l => l.filterMap fun x =>
        match x with
        | .elem e => some e
        | .sv _ => none
    | _ => []

/-- `XMLMapper._compile_query`: parse `"[type: ]xpath"`, defaulting the kind
to `string`; a kind that is neither a built-in `_VALUE_TYPES` key nor a
registered filter must name an already-compiled type (else
`Unknown value type`), and that type must declare `_id` (else
`only types with "_id" can be referenced`); afterwards, an `_id` attribute is
required to use the `string` kind. -/
def compileQuery (flt : Filters) (pc : PathCompiler) (tys : TyIdx)
    (mappingType attr query : String) : Except SynErr CQuery :=
  let (qt, xp) := parseQuery query
  let qtype := qt.getD "string"
  let known : Except SynErr Unit :=
    if builtinKinds.contains qtype ∨ (lookupAssoc flt qtype).isSome then .ok ()
    else
      match lookupAssoc tys qtype with
      | none => .error (.unknownValueType qtype attr mappingType)
      | some hasId =>
        if hasId then .ok () else .error (.invalidReferenceType qtype attr mappingType)
  match known with
  | .error e => .error e
  | .ok _ =>
    if attr = "_id" ∧ qtype ≠ "string" then .error (.idNotString mappingType)
    else .ok (.xpathQ attr qtype (pc xp))

/-- Insert a field into a key-sorted field list (Python `sorted` on dict
keys; keys are unique, so ties are immaterial). -/
def insertField (x : String × RawValue) : List (String × RawValue) → List (String × RawValue)
  | [] => [x]
  | y :: r => if keyLt y.1 x.1 then y :: insertField x r else x :: y :: r

/-- The field ordering of `_compile_mapping`: `for k in sorted(mapping.keys())`. -/
def sortFields : List (String × RawValue) → List (String × RawValue)
  | [] => []
  | x :: r => insertField x (sortFields r)

/-- The signature of the recursive mapping compiler, supplied to the field
loop for strictly smaller fuel. -/
abbrev CompileFn : Type :=
  Option String → RawMapping → Bool → TyIdx → Except SynErr (CQuery × TyIdx)

/-- The field loop of `_compile_mapping`: each non-reserved key compiles to a
field query — a dict value to a singleton nested mapping, a one-element list
wrapping a dict to a list nested mapping, a string to an attribute query, and
anything else fails with `Invalid query type`.  Nested mappings extend the
type index as they are compiled.  (A one-element list wrapping a non-dict is
outside the model: CPython falls into `_compile_mapping` and applies `in` to
the wrapped value.) -/
def compileFieldsGo (compM : CompileFn) (flt : Filters) (pc : PathCompiler)
    (mappingType : String) :
    List (String × RawValue) → TyIdx → List CQuery → Except SynErr (List CQuery × TyIdx)
  | [], tys, acc => .ok (acc, tys)
  | (k, v) :: rest, tys, acc =>
    if k = "_type" ∨ k = "_match" then
      compileFieldsGo compM flt pc mappingType rest tys acc
    else
      match v with
      | .dict d =>
        match compM (some k) d false tys with
        | .error e => .error e
        | .ok (q, tys1) => compileFieldsGo compM flt pc mappingType rest tys1 (acc ++ [q])
      | .list [.dict d] =>
        match compM (some k) d true tys with
        | .error e => .error e
        | .ok (q, tys1) => compileFieldsGo compM flt pc mappingType rest tys1 (acc ++ [q])
      | .str s =>
        match compileQuery flt pc tys mappingType k s with
        | .error e => .error e
        | .ok q => compileFieldsGo compM flt pc mappingType rest tys (acc ++ [q])
      | _ => .error (.invalidFieldSpec k mappingType)

/-- `XMLMapper._compile_mapping`, with fuel for the nested-mapping recursion.
The shape checks run in source order: missing `_type`, non-string `_type`,
missing `_match`, duplicate type, non-string `_match`.  Field queries are
compiled in sorted key order, and only afterwards is the compiled type
registered in the type index (`self._types[mtype] = query_obj`, which
overwrites like a Python dict assignment). -/
def compileMappingFuel (flt : Filters) (pc : PathCompiler) :
    Nat → CompileFn
  | 0, _, _, _, _ => .error .outOfFuel
  | fuel + 1, attr, m, returnsList, tys =>
    match lookupAssoc m "_type" with
    | none => .error .missingType
    | some tv =>
      match tv with
      | .str mtype =>
        if (lookupAssoc m "_match").isNone then .error (.missingMatch mtype)
        else if (lookupAssoc tys mtype).isSome then .error (.duplicateType mtype)
        else
          match lookupAssoc m "_match" with
          | some (.str ms) =>
            match compileFieldsGo (compileMappingFuel flt pc fuel) flt pc mtype
                (sortFields m) tys [] with
            | .error e => .error e
            | .ok (qs, tys1) =>
              let hasId := (lookupAssoc m "_id").isSome
              let depth := 1 + (qs.map qdepth).foldr max 0
              .ok (.mappingQ attr mtype (compileMatch pc ms) hasId returnsList depth qs,
                   updateAssoc tys1 mtype hasId)
          | _ => .error (.matchNotString mtype)
      | _ => .error .typeNotString

/-- Nesting depth of a raw value, to size the compiler's fuel. -/
def rawDepthV : RawValue → Nat
  | .str _ => 0
  | .other => 0
  | .dict fields => 1 + rawDepthM fields
  | .list elems => 1 + rawDepthL elems
where
  rawDepthL : List RawValue → Nat
    | [] => 0
    | v :: r => max (rawDepthV v) (rawDepthL r)
  rawDepthM : List (String × RawValue) → Nat
    | [] => 0
    | (_, v) :: r => max (rawDepthV v) (rawDepthM r)

/-- The `__init__` loop: compile each top-level mapping in order against the
shared type index. -/
def compileMappings (flt : Filters) (pc : PathCompiler) :
    List RawMapping → TyIdx → List CQuery → Except SynErr (List CQuery × TyIdx)
  | [], tys, acc => .ok (acc, tys)
  | m :: rest, tys, acc =>
    match compileMappingFuel flt pc (rawDepthV (.dict m)) none m true tys with
    | .error e => .error e
    | .ok (q, tys1) => compileMappings flt pc rest tys1 (acc ++ [q])

/-- `XMLMapper.__init__`: compile the mapping list (each top-level mapping
with `returns_list = True`) and keep the filters. -/
def mkMapper (flt : Filters) (pc : PathCompiler) (ms : List RawMapping) :
    Except SynErr Mapper :=
  match compileMappings flt pc ms [] [] with
  | .error e => .error e
  | .ok (qs, _) => .ok ⟨flt, qs⟩

/-- Concrete elements of the documentation example
`<r><a id="1"><title>a1</title><b><id value="42"/></b></a><c aid="1"/></r>`. -/
def exRoot : Element := ⟨"r", 1, none⟩

/-- The `<a id="1">` element of the example document. -/
def exA : Element := ⟨"a", 2, none⟩

/-- The `<title>a1</title>` element of the example document. -/
def exTitle : Element := ⟨"title", 3, some "a1"⟩

/-- The `<b>` element of the example document. -/
def exB : Element := ⟨"b", 4, none⟩

/-- The `<c aid="1"/>` element of the example document. -/
def exC : Element := ⟨"c", 7, none⟩

/-- A concrete path compiler for the example: the xpath expressions used by
the documentation spec, evaluated on the example document. -/
def exPc : PathCompiler := fun expr el =>
  if expr = "/r/a" ∧ el = exRoot then .nodeset [.elem exA]
  else if expr = "/r/c" ∧ el = exRoot then .nodeset [.elem exC]
  else if expr = "@id" ∧ el = exA then .nodeset [.sv "1"]
  else if expr = "title" ∧ el = exA then .nodeset [.elem exTitle]
  else if expr = "b" ∧ el = exA then .nodeset [.elem exB]
  else if expr = "id/@value" ∧ el = exB then .nodeset [.sv "42"]
  else if expr = "@aid" ∧ el = exC then .nodeset [.sv "1"]
  else .nodeset []

/-- The documentation example's raw specification set. -/
def exSpecs : List RawMapping :=
  [[("_type", .str "a"), ("_match", .str "/r/a"), ("_id", .str "@id"),
    ("title", .str "title"),
    ("b_list", .list [.dict [("_type", .str "b"), ("_match", .str "b"),
                             ("id", .str "int: id/@value")]])],
   [("_type", .str "c"), ("_match", .str "/r/c"), ("a", .str "a: @aid")]]

/-- The object produced for `<b>` in the example. -/
def exObjB : Value := .objv "b" [("id", .int 42)]

/-- The object produced for `<a>` in the example. -/
def exObjA : Value := .objv "a" [("b_list", .vlist [exObjB]), ("title", .str "a1")]

/-- The object produced for `<c>` in the example. -/
def exObjC : Value := .objv "c" [("a", exObjA)]

example :
    (mkMapper [] exPc exSpecs).map (fun mp => mp.load exRoot) =
      .ok (.ok [exObjB, exObjA, exObjC]) := rfl

/-- `v` is a factory-produced object. -/
def IsObj (v : Value) : Prop := ∃ t fs, v = Value.objv t fs

/-- The object itself, when `v` is an object; nothing otherwise. -/
def topObjs : Value → List Value
  | .objv t fs => [.objv t fs]
  | _ => []

/-- The objects directly embedded in a field value: the object itself, or
the objects of a produced list. -/
def directObjs : Value → List Value
  | .objv t fs => [.objv t fs]
  | .vlist l => l.foldr (fun x r => topObjs x ++ r) []
  | _ => []

/-- The objects embedded in an object's field values. -/
def objFieldObjs : Value → List Value
  | .objv _ fs => fs.foldr (fun kv r => directObjs kv.2 ++ r) []
  | _ => []

/-- `wellOrderedFrom pre l`: reading `l` left to right as extensions of the
accumulator `pre`, every object embedded in an entry's fields already occurs
strictly earlier (in `pre` or before it in `l`).  This is the
nested-constructed-and-appended-before-embedding property of the flat result
list. -/
def wellOrderedFrom : List Value → List Value → Prop
  | _, [] => True
  | pre, o :: rest => (∀ w ∈ objFieldObjs o, w ∈ pre) ∧ wellOrderedFrom (pre ++ [o]) rest

/-- Every object registered in the identity registry (with everything it
directly contains) already occurs in the accumulator. -/
def regSub (st : LState) (acc : List Value) : Prop :=
  ∀ p ∈ st.objects, ∀ w ∈ directObjs p.2, w ∈ acc

/-- The filters fabricate no objects: their results contain no
factory-produced objects.  (A custom filter is external code and may return
anything; the ordering claims quantify over filters that do not inject
objects of their own.) -/
def objFree (flt : Filters) : Prop :=
  ∀ p ∈ flt, ∀ s, directObjs (p.2 s) = []

/-- The induction bundle for the engine: on success the accumulator is
extended append-only by a well-ordered segment, the registry invariant is
preserved, and the produced value only embeds objects present in the final
accumulator. -/
def EngineSpec (runQ : EngineFn) : Prop :=
  ∀ q st acc el v st' acc', runQ q st acc el = .ok (v, st', acc') →
    regSub st acc →
    (∃ d, acc' = acc ++ d ∧ wellOrderedFrom acc d) ∧
    regSub st' acc' ∧
    ∀ w ∈ directObjs v, w ∈ acc'

/-- The engine only ever appends to the identity registry. -/
def RegExt (runQ : EngineFn) : Prop :=
  ∀ q st acc el v st' acc', runQ q st acc el = .ok (v, st', acc') →
    ∃ d, st'.objects = st.objects ++ d

theorem lookupAssoc_mem {κ α : Type} [DecidableEq κ] :
    ∀ (l : List (κ × α)) (k : κ) (a : α), lookupAssoc l k = some a → (k, a) ∈ l
  | (k0, v0) :: r, k, a, h => by
    by_cases hk : k0 = k
    · subst hk
      simp [lookupAssoc] at h
      simp [h]
    · simp only [lookupAssoc, if_neg hk] at h
      exact List.mem_cons_of_mem _ (lookupAssoc_mem r k a h)

theorem updateAssoc_of_not_mem {κ α : Type} [DecidableEq κ] :
    ∀ (l : List (κ × α)) (k : κ) (a : α), lookupAssoc l k = none →
      updateAssoc l k a = l ++ [(k, a)]
  | [], _, _, _ => rfl
  | (k0, v0) :: r, k, a, h => by
    by_cases hk : k0 = k
    · subst hk; simp [lookupAssoc] at h
    · simp only [lookupAssoc, if_neg hk] at h
      simp only [updateAssoc, if_neg hk, List.cons_append]
      rw [updateAssoc_of_not_mem r k a h]

theorem addObject_ok (st : LState) (el : Element) (t : String) (oid : Option String)
    (obj : Value) (st2 : LState) (h : addObject st el t oid obj = .ok st2) :
    ∃ i, oid = some i ∧ lookupAssoc st.objects (t, i) = none ∧
      st2.objects = st.objects ++ [((t, i), obj)] := by
  cases oid with
  | none => simp [addObject] at h
  | some i =>
    cases hl : lookupAssoc st.objects (t, i) with
    | some o => simp [addObject, hl] at h
    | none =>
      simp only [addObject, hl] at h
      cases h
      exact ⟨i, rfl, hl, rfl⟩

theorem shapeResult_ok (el : Element) (rl : Bool) (objs : List Value) (v : Value)
    (h : shapeResult el rl objs = .ok v) :
    (rl = true ∧ v = .vlist objs) ∨
    (rl = false ∧ objs = [] ∧ v = .null) ∨
    (rl = false ∧ ∃ o, objs = [o] ∧ v = o) := by
  cases rl with
  | true =>
    unfold shapeResult at h
    rw [if_pos rfl] at h
    cases h
    exact Or.inl ⟨rfl, rfl⟩
  | false =>
    unfold shapeResult at h
    rw [if_neg (by decide)] at h
    cases objs with
    | nil =>
      cases h
      exact Or.inr (Or.inl ⟨rfl, rfl, rfl⟩)
    | cons o1 tail =>
      cases tail with
      | nil =>
        cases h
        exact Or.inr (Or.inr ⟨rfl, _, rfl, rfl⟩)
      | cons o2 rest => exact Except.noConfusion h

theorem wellOrderedFrom_append (d1 : List Value) :
    ∀ (pre d2 : List Value), wellOrderedFrom pre (d1 ++ d2) ↔
      (wellOrderedFrom pre d1 ∧ wellOrderedFrom (pre ++ d1) d2) := by
  induction d1 with
  | nil => intro pre d2; simp [wellOrderedFrom]
  | cons o rest ih =>
    intro pre d2
    simp only [List.cons_append, wellOrderedFrom, List.append_eq]
    rw [ih (pre ++ [o]) d2]
    have hpp : pre ++ o :: rest = (pre ++ [o]) ++ rest := by simp
    rw [hpp, and_assoc]

theorem mem_foldr_append {β : Type} (f : β → List Value) :
    ∀ (l : List β) (w : Value),
      w ∈ l.foldr (fun x r => f x ++ r) [] ↔ ∃ x ∈ l, w ∈ f x := by
  intro l
  induction l with
  | nil => intro w; simp
  | cons x r ih => intro w; simp [List.mem_append, ih]

theorem directObjs_of_isObj (v : Value) (h : IsObj v) : directObjs v = [v] := by
  obtain ⟨t, fs, rfl⟩ := h
  rfl

theorem topObjs_sub (v : Value) : ∀ w ∈ topObjs v, w = v := by
  cases v <;> simp [topObjs]

theorem objFieldObjs_objv (t : String) (fs : List (String × Value)) (w : Value) :
    w ∈ objFieldObjs (.objv t fs) ↔ ∃ kv ∈ fs, w ∈ directObjs kv.2 := by
  simpa [objFieldObjs] using mem_foldr_append (fun kv => directObjs kv.2) fs w


theorem runQueriesGo_regExt (runQ : EngineFn) (hrq : RegExt runQ) :
    ∀ (qs : List CQuery) (el : Element) (st : LState) (acc : List Value)
      (internal data internal1 data1 : List (String × Value)) (st1 : LState) (acc1 : List Value),
      runQueriesGo runQ qs el st acc internal data = .ok (internal1, data1, st1, acc1) →
      ∃ d, st1.objects = st.objects ++ d
  | [], el, st, acc, internal, data, i1, d1, st1, acc1, h => by
    cases h
    exact ⟨[], by simp⟩
  | q :: rest, el, st, acc, internal, data, i1, d1, st1, acc1, h => by
    simp only [runQueriesGo] at h
    split at h
    next e heq => exact Except.noConfusion h
    next v stq accq heq =>
      obtain ⟨dq, hdq⟩ := hrq q st acc el v stq accq heq
      split at h
      · obtain ⟨d2, hd2⟩ :=
          runQueriesGo_regExt runQ hrq rest el stq accq _ data i1 d1 st1 acc1 h
        exact ⟨dq ++ d2, by rw [hd2, hdq, List.append_assoc]⟩
      · obtain ⟨d2, hd2⟩ :=
          runQueriesGo_regExt runQ hrq rest el stq accq internal _ i1 d1 st1 acc1 h
        exact ⟨dq ++ d2, by rw [hd2, hdq, List.append_assoc]⟩

theorem runMatchesGo_regExt (runQ : EngineFn) (hrq : RegExt runQ)
    (mtype : String) (hasId : Bool) (qs : List CQuery) :
    ∀ (els : List Element) (st : LState) (acc objs objs1 : List Value)
      (st1 : LState) (acc1 : List Value),
      runMatchesGo runQ mtype hasId qs els st acc objs = .ok (objs1, st1, acc1) →
      ∃ d, st1.objects = st.objects ++ d
  | [], st, acc, objs, objs1, st1, acc1, h => by
    cases h
    exact ⟨[], by simp⟩
  | e :: rest, st, acc, objs, objs1, st1, acc1, h => by
    simp only [runMatchesGo] at h
    split at h
    next err heq => exact Except.noConfusion h
    next internal data stq accq heq =>
      obtain ⟨dq, hdq⟩ :=
        runQueriesGo_regExt runQ hrq qs e st acc [] [] internal data stq accq heq
      split at h
      · split at h
        next err heq2 => exact Except.noConfusion h
        next st2 heq2 =>
          obtain ⟨i, _, _, hst2⟩ :=
            addObject_ok stq e mtype (idOf internal) (Value.objv mtype data) st2 heq2
          obtain ⟨d2, hd2⟩ :=
            runMatchesGo_regExt runQ hrq mtype hasId qs rest st2
              (accq ++ [Value.objv mtype data]) (objs ++ [Value.objv mtype data])
              objs1 st1 acc1 h
          refine ⟨dq ++ [((mtype, i), Value.objv mtype data)] ++ d2, ?_⟩
          rw [hd2, hst2, hdq]
          simp [List.append_assoc]
      · obtain ⟨d2, hd2⟩ :=
          runMatchesGo_regExt runQ hrq mtype hasId qs rest stq
            (accq ++ [Value.objv mtype data]) (objs ++ [Value.objv mtype data])
            objs1 st1 acc1 h
        exact ⟨dq ++ d2, by rw [hd2, hdq, List.append_assoc]⟩

theorem engineQ_regExt (flt : Filters) : ∀ (fuel : Nat), RegExt (engineQ flt fuel)
  | 0 => by
    intro q st acc el v st' acc' h
    simp [engineQ] at h
  | fuel + 1 => by
    intro q st acc el v st' acc' h
    cases q with
    | xpathQ a vt xp =>
      simp only [engineQ] at h
      split at h
      next e heq => exact Except.noConfusion h
      next v0 heq =>
        cases h
        exact ⟨[], by simp⟩
    | mappingQ a mtype matchf hasId rl dep qs =>
      simp only [engineQ, loadMappingF] at h
      split at h
      next e heq => exact Except.noConfusion h
      next objs stm accm heq =>
        split at h
        next e heq2 => exact Except.noConfusion h
        next v0 heq2 =>
          cases h
          exact runMatchesGo_regExt (engineQ flt fuel) (engineQ_regExt flt fuel)
            mtype hasId qs (matchf el) st acc [] objs st' acc' heq

theorem convertBuiltin_directObjs (vt s : String) (v : Value)
    (h : convertBuiltin vt s = some v) : directObjs v = [] := by
  unfold convertBuiltin at h
  split_ifs at h
  · cases hp : pyParseInt s with
    | none => rw [hp] at h; exact Option.noConfusion h
    | some n => rw [hp] at h; cases h; rfl
  · cases hp : pyParseFloat s with
    | none => rw [hp] at h; exact Option.noConfusion h
    | some q => rw [hp] at h; cases h; rfl
  · cases h; rfl
  · cases h; rfl

theorem xpathRun_objs (flt : Filters) (hflt : objFree flt) (vt : String) (xp : XPathFn)
    (st : LState) (acc : List Value) (el : Element) (v : Value)
    (hreg : regSub st acc) (h : xpathRun flt vt xp st el = .ok v) :
    ∀ w ∈ directObjs v, w ∈ acc := by
  unfold xpathRun at h
  split at h
  next e heq => exact Except.noConfusion h
  next strv heq =>
    split at h
    · cases h
      cases strv <;> intro w hw <;> simp [optToValue, directObjs] at hw
    · split at h
      · split at h
        · cases h
          intro w hw
          simp [directObjs] at hw
        next s =>
          split at h
          next v0 heq2 =>
            cases h
            rw [convertBuiltin_directObjs vt s v heq2]
            intro w hw
            cases hw
          next heq2 => exact Except.noConfusion h
      · split at h
        next f heqf =>
          cases h
          intro w hw
          rw [hflt (vt, f) (lookupAssoc_mem flt vt f heqf) strv] at hw
          cases hw
        next heqf =>
          cases strv with
          | none => simp [getObject] at h
          | some i =>
            simp only [getObject] at h
            split at h
            next o heqo =>
              cases h
              intro w hw
              exact hreg ((vt, i), v) (lookupAssoc_mem st.objects (vt, i) v heqo) w hw
            next heqo => exact Except.noConfusion h

theorem runQueriesGo_spec (runQ : EngineFn) (hrq : EngineSpec runQ) :
    ∀ (qs : List CQuery) (el : Element) (st : LState) (acc : List Value)
      (internal data internal1 data1 : List (String × Value)) (st1 : LState) (acc1 : List Value),
      runQueriesGo runQ qs el st acc internal data = .ok (internal1, data1, st1, acc1) →
      regSub st acc →
      (∀ kv ∈ data, ∀ w ∈ directObjs kv.2, w ∈ acc) →
      (∃ d, acc1 = acc ++ d ∧ wellOrderedFrom acc d) ∧
      regSub st1 acc1 ∧
      (∀ kv ∈ data1, ∀ w ∈ directObjs kv.2, w ∈ acc1)
  | [], el, st, acc, internal, data, i1, d1, st1, acc1, h, hreg, hdata => by
    cases h
    exact ⟨⟨[], by simp, trivial⟩, hreg, hdata⟩
  | q :: rest, el, st, acc, internal, data, i1, d1, st1, acc1, h, hreg, hdata => by
    simp only [runQueriesGo] at h
    split at h
    next e heq => exact Except.noConfusion h
    next v stq accq heq =>
      obtain ⟨⟨dq, haccq, hwoq⟩, hregq, hvq⟩ := hrq q st acc el v stq accq heq hreg
      split at h
      · have hdata2 : ∀ kv ∈ data, ∀ w ∈ directObjs kv.2, w ∈ accq := by
          intro kv hkv w hw
          rw [haccq]
          exact List.mem_append_left _ (hdata kv hkv w hw)
        obtain ⟨⟨d2, hacc1, hwo2⟩, hreg1, hdata1⟩ :=
          runQueriesGo_spec runQ hrq rest el stq accq _ data i1 d1 st1 acc1 h hregq hdata2
        refine ⟨⟨dq ++ d2, ?_, ?_⟩, hreg1, hdata1⟩
        · rw [hacc1, haccq, List.append_assoc]
        · rw [wellOrderedFrom_append]
          exact ⟨hwoq, by rw [← haccq]; exact hwo2⟩
      · have hdata2 : ∀ kv ∈ data ++ [(qattr q, v)], ∀ w ∈ directObjs kv.2, w ∈ accq := by
          intro kv hkv w hw
          rcases List.mem_append.mp hkv with hkv | hkv
          · rw [haccq]
            exact List.mem_append_left _ (hdata kv hkv w hw)
          · simp only [List.mem_singleton] at hkv
            subst hkv
            exact hvq w hw
        obtain ⟨⟨d2, hacc1, hwo2⟩, hreg1, hdata1⟩ :=
          runQueriesGo_spec runQ hrq rest el stq accq internal _ i1 d1 st1 acc1 h hregq hdata2
        refine ⟨⟨dq ++ d2, ?_, ?_⟩, hreg1, hdata1⟩
        · rw [hacc1, haccq, List.append_assoc]
        · rw [wellOrderedFrom_append]
          exact ⟨hwoq, by rw [← haccq]; exact hwo2⟩

theorem runMatchesGo_spec (runQ : EngineFn) (hrq : EngineSpec runQ)
    (mtype : String) (hasId : Bool) (qs : List CQuery) :
    ∀ (els : List Element) (st : LState) (acc objs objs1 : List Value)
      (st1 : LState) (acc1 : List Value),
      runMatchesGo runQ mtype hasId qs els st acc objs = .ok (objs1, st1, acc1) →
      regSub st acc →
      (∀ o ∈ objs, o ∈ acc ∧ IsObj o) →
      (∃ d, acc1 = acc ++ d ∧ wellOrderedFrom acc d) ∧
      regSub st1 acc1 ∧
      (∀ o ∈ objs1, o ∈ acc1 ∧ IsObj o)
  | [], st, acc, objs, objs1, st1, acc1, h, hreg, hobjs => by
    cases h
    exact ⟨⟨[], by simp, trivial⟩, hreg, hobjs⟩
  | e :: rest, st, acc, objs, objs1, st1, acc1, h, hreg, hobjs => by
    simp only [runMatchesGo] at h
    split at h
    next err heq => exact Except.noConfusion h
    next internal data stq accq heq =>
      obtain ⟨⟨dq, haccq, hwoq⟩, hregq, hdataq⟩ :=
        runQueriesGo_spec runQ hrq qs e st acc [] [] internal data stq accq heq hreg
          (by intro kv hkv; cases hkv)
      have hobjfields : ∀ w ∈ objFieldObjs (Value.objv mtype data), w ∈ accq := by
        intro w hw
        obtain ⟨kv, hkv, hw2⟩ := (objFieldObjs_objv mtype data w).mp hw
        exact hdataq kv hkv w hw2
      have hwo2 : wellOrderedFrom acc (dq ++ [Value.objv mtype data]) := by
        rw [wellOrderedFrom_append]
        refine ⟨hwoq, ?_, trivial⟩
        intro w hw
        rw [← haccq]
        exact hobjfields w hw
      have hreg2 : regSub stq (accq ++ [Value.objv mtype data]) := by
        intro p hp w hw
        exact List.mem_append_left _ (hregq p hp w hw)
      have hobjs2 : ∀ o ∈ objs ++ [Value.objv mtype data],
          o ∈ accq ++ [Value.objv mtype data] ∧ IsObj o := by
        intro o ho
        rcases List.mem_append.mp ho with ho | ho
        · obtain ⟨h1, h2⟩ := hobjs o ho
          refine ⟨List.mem_append_left _ ?_, h2⟩
          rw [haccq]
          exact List.mem_append_left _ h1
        · simp only [List.mem_singleton] at ho
          subst ho
          exact ⟨by simp, mtype, data, rfl⟩
      split at h
      · split at h
        next err heq2 => exact Except.noConfusion h
        next st2 heq2 =>
          obtain ⟨i, hi, hnl, hst2⟩ :=
            addObject_ok stq e mtype (idOf internal) (Value.objv mtype data) st2 heq2
          have hreg3 : regSub st2 (accq ++ [Value.objv mtype data]) := by
            intro p hp w hw
            rw [hst2] at hp
            rcases List.mem_append.mp hp with hp | hp
            · exact hreg2 p hp w hw
            · simp only [List.mem_singleton] at hp
              subst hp
              simp only [directObjs] at hw
              simp only [List.mem_singleton] at hw
              subst hw
              simp
          obtain ⟨⟨d2, hacc1, hwo3⟩, hreg4, hobjs4⟩ :=
            runMatchesGo_spec runQ hrq mtype hasId qs rest st2
              (accq ++ [Value.objv mtype data]) (objs ++ [Value.objv mtype data])
              objs1 st1 acc1 h hreg3 hobjs2
          refine ⟨⟨dq ++ [Value.objv mtype data] ++ d2, ?_, ?_⟩, hreg4, hobjs4⟩
          · rw [hacc1, haccq]
            simp [List.append_assoc]
          · rw [wellOrderedFrom_append]
            refine ⟨hwo2, ?_⟩
            have hre : acc ++ (dq ++ [Value.objv mtype data]) =
                accq ++ [Value.objv mtype data] := by
              rw [haccq, List.append_assoc]
            rw [hre]
            exact hwo3
      · obtain ⟨⟨d2, hacc1, hwo3⟩, hreg4, hobjs4⟩ :=
          runMatchesGo_spec runQ hrq mtype hasId qs rest stq
            (accq ++ [Value.objv mtype data]) (objs ++ [Value.objv mtype data])
            objs1 st1 acc1 h hreg2 hobjs2
        refine ⟨⟨dq ++ [Value.objv mtype data] ++ d2, ?_, ?_⟩, hreg4, hobjs4⟩
        · rw [hacc1, haccq]
          simp [List.append_assoc]
        · rw [wellOrderedFrom_append]
          refine ⟨hwo2, ?_⟩
          have hre : acc ++ (dq ++ [Value.objv mtype data]) =
              accq ++ [Value.objv mtype data] := by
            rw [haccq, List.append_assoc]
          rw [hre]
          exact hwo3

theorem engineQ_spec (flt : Filters) (hflt : objFree flt) :
    ∀ (fuel : Nat), EngineSpec (engineQ flt fuel)
  | 0 => by
    intro q st acc el v st' acc' h hreg
    simp [engineQ] at h
  | fuel + 1 => by
    intro q st acc el v st' acc' h hreg
    cases q with
    | xpathQ a vt xp =>
      simp only [engineQ] at h
      split at h
      next e heq => exact Except.noConfusion h
      next v0 heq =>
        cases h
        exact ⟨⟨[], by simp, trivial⟩, hreg,
          xpathRun_objs flt hflt vt xp st acc el v hreg heq⟩
    | mappingQ a mtype matchf hasId rl dep qs =>
      simp only [engineQ, loadMappingF] at h
      split at h
      next e heq => exact Except.noConfusion h
      next objs stm accm heq =>
        split at h
        next e heq2 => exact Except.noConfusion h
        next v0 heq2 =>
          cases h
          obtain ⟨⟨d, hacc, hwo⟩, hregm, hobjsm⟩ :=
            runMatchesGo_spec (engineQ flt fuel) (engineQ_spec flt hflt fuel)
              mtype hasId qs (matchf el) st acc [] objs st' acc' heq hreg
              (by intro o ho; cases ho)
          refine ⟨⟨d, hacc, hwo⟩, hregm, ?_⟩
          rcases shapeResult_ok el rl objs v heq2 with ⟨_, hv⟩ | ⟨_, hobjs0, hv⟩ |
            ⟨_, o, hobjs0, hv⟩
          · subst hv
            intro w hw
            simp only [directObjs] at hw
            obtain ⟨x, hx, hwx⟩ := (mem_foldr_append topObjs objs w).mp hw
            obtain ⟨hxin, _⟩ := hobjsm x hx
            rw [topObjs_sub x w hwx]
            exact hxin
          · subst hv
            intro w hw
            simp [directObjs] at hw
          · subst hv
            subst hobjs0
            obtain ⟨hin, hobj⟩ := hobjsm v (by simp)
            intro w hw
            rw [directObjs_of_isObj v hobj] at hw
            simp only [List.mem_singleton] at hw
            subst hw
            exact hin

theorem loadMappings_spec (flt : Filters) (hflt : objFree flt) :
    ∀ (ms : List CQuery) (st : LState) (acc : List Value) (root : Element) (res : List Value),
      loadMappings flt ms st acc root = .ok res → regSub st acc →
      ∃ d, res = acc ++ d ∧ wellOrderedFrom acc d
  | [], st, acc, root, res, h, hreg => by
    cases h
    exact ⟨[], by simp, trivial⟩
  | m :: rest, st, acc, root, res, h, hreg => by
    simp only [loadMappings] at h
    split at h
    next e heq => exact Except.noConfusion h
    next v st1 acc1 heq =>
      obtain ⟨⟨d1, hacc1, hwo1⟩, hreg1, _⟩ :=
        engineQ_spec flt hflt (qdepth m) m st acc root v st1 acc1 heq hreg
      obtain ⟨d2, hres, hwo2⟩ := loadMappings_spec flt hflt rest st1 acc1 root res h hreg1
      refine ⟨d1 ++ d2, ?_, ?_⟩
      · rw [hres, hacc1, List.append_assoc]
      · rw [wellOrderedFrom_append]
        exact ⟨hwo1, by rw [← hacc1]; exact hwo2⟩

/-- The compiled top-level mappings of the documentation example (used as a
concrete instance in witnesses). -/
def exMappings : List CQuery :=
  match mkMapper [] exPc exSpecs with
  | .ok mp => mp.mappings
  | .error _ => []

/-- The compiled example mapper: no filters, the documentation example
specification set. -/
def exMapper : Mapper := ⟨[], exMappings⟩

/-- C1: for every compiled specification set and every document, the list
returned by `load` is the depth-first, document-order construction trace:
each nested (`_MappingQuery`) object and each referenced object embedded in a
produced object occurs in the flat result strictly before the object that
embeds or references it (`wellOrderedFrom [] res`); and at every engine step
the accumulator grows append-only by a well-ordered segment while every
registered object is already present in the accumulator (registration
happens no later than the construction of any object that can reference it).
The custom filters are assumed not to fabricate objects of their own. -/
theorem c1_load_order (mp : Mapper) (root : Element) (res : List Value)
    (hflt : objFree mp.filters) (h : mp.load root = .ok res) :
    wellOrderedFrom [] res ∧
    ∀ fuel q st acc el v st' acc',
      engineQ mp.filters fuel q st acc el = .ok (v, st', acc') → regSub st acc →
      (∃ d, acc' = acc ++ d ∧ wellOrderedFrom acc d) ∧ regSub st' acc' := by
  constructor
  · obtain ⟨d, hres, hwo⟩ :=
      loadMappings_spec mp.filters hflt mp.mappings ⟨[]⟩ [] root res h
        (by intro p hp; cases hp)
    rw [hres]
    simpa using hwo
  · intro fuel q st acc el v st' acc' hq hreg
    obtain ⟨he, hr, _⟩ := engineQ_spec mp.filters hflt fuel q st acc el v st' acc' hq hreg
    exact ⟨he, hr⟩

theorem c1_load_order_witness :
    wellOrderedFrom [] [exObjB, exObjA, exObjC] :=
  (c1_load_order exMapper exRoot [exObjB, exObjA, exObjC]
    (by intro p hp; cases hp) rfl).1

/-- C2: a reference-kind field query (kind neither a built-in `_VALUE_TYPES`
key nor a registered filter) resolves by looking up `(kind, collapsed id)`
in the identity registry of the current `load` call: a pair never registered
fails with `Referenced undefined` (also when the collapsed id is null), a
registered pair yields exactly the registered object and leaves registry and
accumulator untouched, and the engine only ever appends to the registry — so
a lookup can only succeed against identities registered earlier in the same
traversal. -/
theorem c2_reference_forward_resolution (flt : Filters) (fuel : Nat) (attr vt : String)
    (xp : XPathFn) (st : LState) (acc : List Value) (el : Element) (strv : Option String)
    (hb : builtinKinds.contains vt = false)
    (hf : lookupAssoc flt vt = none)
    (hg : getString el (xp el) = .ok strv) :
    (strv = none →
      engineQ flt (fuel + 1) (.xpathQ attr vt xp) st acc el =
        .error (mkErr el (.undefinedRef vt none))) ∧
    (∀ i, strv = some i → lookupAssoc st.objects (vt, i) = none →
      engineQ flt (fuel + 1) (.xpathQ attr vt xp) st acc el =
        .error (mkErr el (.undefinedRef vt (some i)))) ∧
    (∀ i o, strv = some i → lookupAssoc st.objects (vt, i) = some o →
      engineQ flt (fuel + 1) (.xpathQ attr vt xp) st acc el = .ok (o, st, acc)) ∧
    (∀ fuel2 q st0 acc0 el0 v st1 acc1,
      engineQ flt fuel2 q st0 acc0 el0 = .ok (v, st1, acc1) →
      ∃ d, st1.objects = st0.objects ++ d) := by
  have hvt : ¬ (vt = "string") := by
    intro hh
    rw [hh] at hb
    exact absurd hb (by decide)
  have hrun : xpathRun flt vt xp st el = getObject st el vt strv := by
    simp only [xpathRun, hg, if_neg hvt, hb, Bool.false_eq_true, if_false, hf]
  refine ⟨?_, ?_, ?_, ?_⟩
  · intro h0
    subst h0
    simp only [engineQ, hrun, getObject]
  · intro i h0 hl
    subst h0
    simp only [engineQ, hrun, getObject, hl]
  · intro i o h0 hl
    subst h0
    simp only [engineQ, hrun, getObject, hl]
  · intro fuel2 q st0 acc0 el0 v st1 acc1 hq
    exact engineQ_regExt flt fuel2 q st0 acc0 el0 v st1 acc1 hq

theorem c2_reference_forward_resolution_witness :
    engineQ [] 1 (.xpathQ "a" "atype" (fun _ => .nodeset [.sv "1"])) ⟨[]⟩ []
      ⟨"e", 1, none⟩ = .error (mkErr ⟨"e", 1, none⟩ (.undefinedRef "atype" (some "1"))) ∧
    engineQ [] 1 (.xpathQ "a" "atype" (fun _ => .nodeset [.sv "1"]))
      ⟨[(("atype", "1"), Value.objv "atype" [])]⟩ [] ⟨"e", 1, none⟩ =
      .ok (Value.objv "atype" [], ⟨[(("atype", "1"), Value.objv "atype" [])]⟩, []) := by
  constructor
  · exact (c2_reference_forward_resolution [] 0 "a" "atype"
      (fun _ => .nodeset [.sv "1"]) ⟨[]⟩ [] ⟨"e", 1, none⟩ (some "1")
      rfl rfl rfl).2.1 "1" rfl rfl
  · exact (c2_reference_forward_resolution [] 0 "a" "atype"
      (fun _ => .nodeset [.sv "1"]) ⟨[(("atype", "1"), Value.objv "atype" [])]⟩ []
      ⟨"e", 1, none⟩ (some "1") rfl rfl rfl).2.2.1 "1" (Value.objv "atype" []) rfl rfl

theorem xpathRun_builtin (flt : Filters) (vt : String) (hvt : ¬ (vt = "string"))
    (hb : builtinKinds.contains vt = true) (xp : XPathFn) (st : LState) (el : Element)
    (strv : Option String) (hg : getString el (xp el) = .ok strv) :
    xpathRun flt vt xp st el =
      match strv with
      | none => .ok .null
      | some s =>
        match convertBuiltin vt s with
        | some v => .ok v
        | none => .error (mkErr el (.invalidLiteral vt s)) := by
  simp only [xpathRun, hg, if_neg hvt, hb, if_true]
  cases strv <;> rfl

/-- C3: for the `int`, `float` and `bool` kinds, a null collapsed value
yields null without invoking the conversion; otherwise the collapsed string
is parsed — `int` and `float` by the Python numeric literal grammar, `bool`
by case-insensitive comparison with `"true"` (which never fails) — and a
parse failure raises `Invalid literal` carrying the kind name and the
offending text.  Concretely `int("123") = 123`, `float("12.3") = 123/10`,
`bool("true") = true`, `bool("FALSE") = false`. -/
theorem c3_builtin_coercions (flt : Filters) (fuel : Nat) (attr : String)
    (st : LState) (acc : List Value) (el : Element) (xpE xpS : XPathFn) (s : String)
    (hE : xpE el = .nodeset [])
    (hS : xpS el = .nodeset [.sv s])
    (hstrip : pyStrip s = s) :
    (engineQ flt (fuel + 1) (.xpathQ attr "int" xpE) st acc el = .ok (.null, st, acc)) ∧
    (engineQ flt (fuel + 1) (.xpathQ attr "float" xpE) st acc el = .ok (.null, st, acc)) ∧
    (engineQ flt (fuel + 1) (.xpathQ attr "bool" xpE) st acc el = .ok (.null, st, acc)) ∧
    (∀ n, pyParseInt s = some n →
      engineQ flt (fuel + 1) (.xpathQ attr "int" xpS) st acc el = .ok (.int n, st, acc)) ∧
    (pyParseInt s = none →
      engineQ flt (fuel + 1) (.xpathQ attr "int" xpS) st acc el =
        .error (mkErr el (.invalidLiteral "int" s))) ∧
    (∀ q, pyParseFloat s = some q →
      engineQ flt (fuel + 1) (.xpathQ attr "float" xpS) st acc el = .ok (.float q, st, acc)) ∧
    (pyParseFloat s = none →
      engineQ flt (fuel + 1) (.xpathQ attr "float" xpS) st acc el =
        .error (mkErr el (.invalidLiteral "float" s))) ∧
    (engineQ flt (fuel + 1) (.xpathQ attr "bool" xpS) st acc el =
      .ok (.bool (pyLower s = "true"), st, acc)) ∧
    pyParseInt "123" = some 123 ∧
    pyParseFloat "12.3" = some (123 / 10 : Rat) ∧
    pyLower "true" = "true" ∧ pyLower "FALSE" = "false" := by
  have hgE : getString el (xpE el) = .ok none := by rw [hE]; rfl
  have hgS : getString el (xpS el) = .ok (some s) := by
    rw [hS]
    simp [getString, renderNode, hstrip]
  refine ⟨?_, ?_, ?_, ?_, ?_, ?_, ?_, ?_, by decide, ?_, rfl, rfl⟩
  · simp only [engineQ, xpathRun_builtin flt "int" (by decide) rfl xpE st el none hgE]
  · simp only [engineQ, xpathRun_builtin flt "float" (by decide) rfl xpE st el none hgE]
  · simp only [engineQ, xpathRun_builtin flt "bool" (by decide) rfl xpE st el none hgE]
  · intro n hn
    have hc : convertBuiltin "int" s = some (.int n) := by simp [convertBuiltin, hn]
    simp only [engineQ, xpathRun_builtin flt "int" (by decide) rfl xpS st el (some s) hgS, hc]
  · intro hn
    have hc : convertBuiltin "int" s = none := by simp [convertBuiltin, hn]
    simp only [engineQ, xpathRun_builtin flt "int" (by decide) rfl xpS st el (some s) hgS, hc]
  · intro q hq
    have hc : convertBuiltin "float" s = some (.float q) := by simp [convertBuiltin, hq]
    simp only [engineQ, xpathRun_builtin flt "float" (by decide) rfl xpS st el (some s) hgS, hc]
  · intro hq
    have hc : convertBuiltin "float" s = none := by simp [convertBuiltin, hq]
    simp only [engineQ, xpathRun_builtin flt "float" (by decide) rfl xpS st el (some s) hgS, hc]
  · have hc : convertBuiltin "bool" s = some (.bool (pyLower s = "true")) := by
      simp [convertBuiltin]
    simp only [engineQ, xpathRun_builtin flt "bool" (by decide) rfl xpS st el (some s) hgS, hc]
  · have hp : pyParseFloatParts "12.3" = some (123, 10) := by decide
    simp [pyParseFloat, hp]

theorem c3_builtin_coercions_witness :
    engineQ [] 1 (.xpathQ "a" "int" (fun _ => .nodeset [.sv "123"])) ⟨[]⟩ []
      ⟨"e", 1, none⟩ = .ok (.int 123, ⟨[]⟩, []) ∧
    engineQ [] 1 (.xpathQ "a" "int" (fun _ => .nodeset [])) ⟨[]⟩ []
      ⟨"e", 1, none⟩ = .ok (.null, ⟨[]⟩, []) ∧
    engineQ [] 1 (.xpathQ "a" "int" (fun _ => .nodeset [.sv "x7"])) ⟨[]⟩ []
      ⟨"e", 1, none⟩ = .error (mkErr ⟨"e", 1, none⟩ (.invalidLiteral "int" "x7")) := by
  have h1 := c3_builtin_coercions [] 0 "a" ⟨[]⟩ [] ⟨"e", 1, none⟩
    (fun _ => .nodeset []) (fun _ => .nodeset [.sv "123"]) "123" rfl rfl rfl
  have h2 := c3_builtin_coercions [] 0 "a" ⟨[]⟩ [] ⟨"e", 1, none⟩
    (fun _ => .nodeset []) (fun _ => .nodeset [.sv "x7"]) "x7" rfl rfl rfl
  exact ⟨h1.2.2.2.1 123 (by decide), h1.1, h2.2.2.2.2.1 (by decide)⟩

/-- C4: a list-returning compiled mapping returns the full (possibly empty)
list of objects produced at its level; a singleton mapping returns null on
zero matches, the single object on exactly one match, and fails with
`Nested mapping returned more than one object` (reported against the context
element) on two or more. -/
theorem c4_return_shape (flt : Filters) (fuel : Nat) (a : Option String) (mtype : String)
    (matchf : Element → List Element) (hasId : Bool) (dep : Nat) (qs : List CQuery)
    (st : LState) (acc : List Value) (el : Element) (objs : List Value)
    (st1 : LState) (acc1 : List Value)
    (h : runMatchesGo (engineQ flt fuel) mtype hasId qs (matchf el) st acc [] =
      .ok (objs, st1, acc1)) :
    (engineQ flt (fuel + 1) (.mappingQ a mtype matchf hasId true dep qs) st acc el =
      .ok (.vlist objs, st1, acc1)) ∧
    (objs = [] →
      engineQ flt (fuel + 1) (.mappingQ a mtype matchf hasId false dep qs) st acc el =
        .ok (.null, st1, acc1)) ∧
    (∀ o, objs = [o] →
      engineQ flt (fuel + 1) (.mappingQ a mtype matchf hasId false dep qs) st acc el =
        .ok (o, st1, acc1)) ∧
    (2 ≤ objs.length →
      engineQ flt (fuel + 1) (.mappingQ a mtype matchf hasId false dep qs) st acc el =
        .error (mkErr el (.nestedMultiple objs.length))) := by
  refine ⟨?_, ?_, ?_, ?_⟩
  · simp [engineQ, loadMappingF, h, shapeResult]
  · intro h0
    subst h0
    simp [engineQ, loadMappingF, h, shapeResult]
  · intro o h0
    subst h0
    simp [engineQ, loadMappingF, h, shapeResult]
  · intro hlen
    cases objs with
    | nil => simp at hlen
    | cons o1 tail =>
      cases tail with
      | nil => simp at hlen
      | cons o2 rest =>
        simp [engineQ, loadMappingF, h, shapeResult]

theorem c4_return_shape_witness :
    engineQ [] 1 (.mappingQ none "t" (fun e => [e]) false true 1 []) ⟨[]⟩ []
      ⟨"e", 1, none⟩ = .ok (.vlist [Value.objv "t" []], ⟨[]⟩, [Value.objv "t" []]) ∧
    engineQ [] 1 (.mappingQ none "t" (fun e => [e]) false false 1 []) ⟨[]⟩ []
      ⟨"e", 1, none⟩ = .ok (Value.objv "t" [], ⟨[]⟩, [Value.objv "t" []]) ∧
    engineQ [] 1 (.mappingQ none "t" (fun e => [e, e]) false false 1 []) ⟨[]⟩ []
      ⟨"e", 1, none⟩ = .error (mkErr ⟨"e", 1, none⟩ (.nestedMultiple 2)) := by
  have h1 := c4_return_shape [] 0 none "t" (fun e => [e]) false 1 [] ⟨[]⟩ []
    ⟨"e", 1, none⟩ [Value.objv "t" []] ⟨[]⟩ [Value.objv "t" []] rfl
  have h2 := c4_return_shape [] 0 none "t" (fun e => [e, e]) false 1 [] ⟨[]⟩ []
    ⟨"e", 1, none⟩ [Value.objv "t" [], Value.objv "t" []] ⟨[]⟩
    [Value.objv "t" [], Value.objv "t" []] rfl
  exact ⟨h1.1, h1.2.2.1 (Value.objv "t" []) rfl, h2.2.2.2 (by decide)⟩

/-- C5 counterexample: the claim "an empty result set collapses to null, so
a missing attribute/element yields null for every kind" fails for a
reference kind.  A reference-kind field (`"atype"`, not built-in and not a
filter) whose path matches nothing does not yield null: it raises
`Referenced undefined "atype" object with id "None"`. -/
theorem c5_collapse_counterexample :
    engineQ [] 1 (.xpathQ "a" "atype" (fun _ => .nodeset [])) ⟨[]⟩ [] ⟨"c", 7, none⟩ =
      .error (mkErr ⟨"c", 7, none⟩ (.undefinedRef "atype" none)) ∧
    engineQ [] 1 (.xpathQ "a" "atype" (fun _ => .nodeset [])) ⟨[]⟩ [] ⟨"c", 7, none⟩ ≠
      .ok (.null, ⟨[]⟩, []) := by
  constructor
  · rfl
  · intro h
    rw [show engineQ [] 1 (.xpathQ "a" "atype" (fun _ => .nodeset [])) ⟨[]⟩ []
        ⟨"c", 7, none⟩ = .error (mkErr ⟨"c", 7, none⟩ (.undefinedRef "atype" none))
      from rfl] at h
    exact Except.noConfusion h

/-- C5 (amended): the path-resolver result set is collapsed to a single
string before kind handling — empty collapses to null, so a missing
attribute/element yields null for the four built-in kinds (a filter kind
instead receives the null and returns the filter's own result, and a
reference kind fails with an undefined-reference error); exactly one result
collapses to its rendered textual content stripped of surrounding
whitespace; more than one result fails with the multiple-elements error
reported against the matched element, not the result nodes. -/
theorem c5_collapse_amended (flt : Filters) (fuel : Nat) (attr : String)
    (st : LState) (acc : List Value) (el : Element) (xpE : XPathFn)
    (hE : xpE el = .nodeset []) :
    (∀ x, getString el (.nodeset [x]) = .ok (some (pyStrip (renderNode x)))) ∧
    (∀ x y rest, getString el (.nodeset (x :: y :: rest)) =
      .error (mkErr el .multipleElements)) ∧
    getString el (.nodeset []) = .ok none ∧
    (engineQ flt (fuel + 1) (.xpathQ attr "string" xpE) st acc el = .ok (.null, st, acc)) ∧
    (engineQ flt (fuel + 1) (.xpathQ attr "int" xpE) st acc el = .ok (.null, st, acc)) ∧
    (engineQ flt (fuel + 1) (.xpathQ attr "float" xpE) st acc el = .ok (.null, st, acc)) ∧
    (engineQ flt (fuel + 1) (.xpathQ attr "bool" xpE) st acc el = .ok (.null, st, acc)) := by
  have hgE : getString el (xpE el) = .ok none := by rw [hE]; rfl
  refine ⟨fun x => rfl, fun x y rest => rfl, rfl, ?_, ?_, ?_, ?_⟩
  · simp [engineQ, xpathRun, hgE, optToValue]
  · simp only [engineQ, xpathRun_builtin flt "int" (by decide) rfl xpE st el none hgE]
  · simp only [engineQ, xpathRun_builtin flt "float" (by decide) rfl xpE st el none hgE]
  · simp only [engineQ, xpathRun_builtin flt "bool" (by decide) rfl xpE st el none hgE]

theorem c5_collapse_amended_witness :
    getString ⟨"e", 1, none⟩ (.nodeset [.sv " a "]) = .ok (some "a") ∧
    getString ⟨"e", 1, none⟩ (.nodeset [.sv "x", .sv "y"]) =
      .error (mkErr ⟨"e", 1, none⟩ .multipleElements) ∧
    engineQ [] 1 (.xpathQ "a" "string" (fun _ => .nodeset [])) ⟨[]⟩ []
      ⟨"e", 1, none⟩ = .ok (.null, ⟨[]⟩, []) := by
  have h := c5_collapse_amended [] 0 "a" ⟨[]⟩ [] ⟨"e", 1, none⟩
    (fun _ => .nodeset []) rfl
  exact ⟨h.1 (.sv " a "), h.2.1 (.sv "x") (.sv "y") [], h.2.2.2.1⟩

/-- C6: a field query whose kind names a registered filter invokes the
filter unconditionally with the collapsed value — null included — and
returns the filter's result verbatim, whereas the built-in `int`, `float`
and `bool` kinds return null on a null collapsed value without running the
conversion. -/
theorem c6_filter_unconditional (flt : Filters) (fuel : Nat) (attr vt : String)
    (xp : XPathFn) (st : LState) (acc : List Value) (el : Element)
    (f : Option String → Value) (strv : Option String)
    (hb : builtinKinds.contains vt = false)
    (hf : lookupAssoc flt vt = some f)
    (hg : getString el (xp el) = .ok strv) :
    engineQ flt (fuel + 1) (.xpathQ attr vt xp) st acc el = .ok (f strv, st, acc) ∧
    (∀ k, k ∈ ["int", "float", "bool"] → ∀ xpE : XPathFn, xpE el = .nodeset [] →
      engineQ flt (fuel + 1) (.xpathQ attr k xpE) st acc el = .ok (.null, st, acc)) := by
  have hvt : ¬ (vt = "string") := by
    intro hh
    rw [hh] at hb
    exact absurd hb (by decide)
  constructor
  · simp only [engineQ, xpathRun, hg, if_neg hvt, hb, Bool.false_eq_true, if_false, hf]
  · intro k hk xpE hE
    have hgE : getString el (xpE el) = .ok none := by rw [hE]; rfl
    simp only [List.mem_cons, List.not_mem_nil, or_false] at hk
    rcases hk with rfl | rfl | rfl
    · simp only [engineQ, xpathRun_builtin flt "int" (by decide) rfl xpE st el none hgE]
    · simp only [engineQ, xpathRun_builtin flt "float" (by decide) rfl xpE st el none hgE]
    · simp only [engineQ, xpathRun_builtin flt "bool" (by decide) rfl xpE st el none hgE]

theorem c6_filter_unconditional_witness :
    engineQ [("f", fun v => Value.str (if v = none then "was-null" else "had-value"))] 1
      (.xpathQ "a" "f" (fun _ => .nodeset [])) ⟨[]⟩ [] ⟨"e", 1, none⟩ =
      .ok (.str "was-null", ⟨[]⟩, []) := by
  have h := (c6_filter_unconditional
    [("f", fun v => Value.str (if v = none then "was-null" else "had-value"))] 0 "a" "f"
    (fun _ => .nodeset []) ⟨[]⟩ [] ⟨"e", 1, none⟩
    (fun v => Value.str (if v = none then "was-null" else "had-value")) none
    rfl rfl rfl).1
  exact h

/-- Two successive `load` calls on the same compiled mapper instance, as a
pair: the instance carries only immutable compiled state, and each call
builds its own identity registry and result accumulator. -/
def loadPair (mp : Mapper) (d1 d2 : Element) :
    Except LoadErr (List Value) × Except LoadErr (List Value) :=
  (mp.load d1, mp.load d2)

/-- C7: each `load` call starts from a fresh empty identity registry and a
fresh empty result accumulator, so on one compiled instance the result of a
call does not depend on any earlier call: in a pair of successive calls, the
second result is unchanged under any variation of the first document, and
the first result under any variation of the second — there is no identity
leakage between calls. -/
theorem c7_load_isolation (mp : Mapper) (d1 d1' d2 d2' : Element) :
    mp.load d2 = loadMappings mp.filters mp.mappings ⟨[]⟩ [] d2 ∧
    (loadPair mp d1 d2).2 = (loadPair mp d1' d2).2 ∧
    (loadPair mp d1 d2).1 = (loadPair mp d1 d2').1 :=
  ⟨rfl, rfl, rfl⟩

/-- The raw specification pair of the C8 counterexample: a duplicate type
name whose second occurrence also has a non-string `_match`. -/
def c8Specs : List RawMapping :=
  [[("_type", .str "a"), ("_match", .str "x")],
   [("_type", .str "a"), ("_match", .other)]]

/-- C8 counterexample: the `_match`-is-a-string check does not run before
the duplicate-type check.  Compiling a second mapping whose `_type`
duplicates an earlier one and whose `_match` is not a string reports
`Duplicate mapping type`, not `"_match" should be a string`. -/
theorem c8_shape_order_counterexample :
    compileMappings [] exPc c8Specs [] [] = .error (.duplicateType "a") ∧
    compileMappings [] exPc c8Specs [] [] ≠ .error (.matchNotString "a") := by
  constructor
  · rfl
  · intro h
    rw [show compileMappings [] exPc c8Specs [] [] = .error (.duplicateType "a")
      from rfl] at h
    exact absurd (Except.error.inj h) (by decide)

/-- C8 (amended): the compiler's shape checks run in source order — missing
`_type`, non-string `_type`, then missing `_match` — all before the
duplicate-type check; but the non-string `_match` check runs after the
duplicate-type check, so it fires only when the type name is not a
duplicate. -/
theorem c8_shape_checks_amended (flt : Filters) (pc : PathCompiler) (fuel : Nat)
    (attr : Option String) (rl : Bool) (tys : TyIdx) (m : RawMapping) :
    (lookupAssoc m "_type" = none →
      compileMappingFuel flt pc (fuel + 1) attr m rl tys = .error .missingType) ∧
    (∀ v, lookupAssoc m "_type" = some v → (∀ s, ¬ (v = .str s)) →
      compileMappingFuel flt pc (fuel + 1) attr m rl tys = .error .typeNotString) ∧
    (∀ t, lookupAssoc m "_type" = some (.str t) → lookupAssoc m "_match" = none →
      compileMappingFuel flt pc (fuel + 1) attr m rl tys = .error (.missingMatch t)) ∧
    (∀ t hid, lookupAssoc m "_type" = some (.str t) → lookupAssoc m "_match" ≠ none →
      lookupAssoc tys t = some hid →
      compileMappingFuel flt pc (fuel + 1) attr m rl tys = .error (.duplicateType t)) ∧
    (∀ t v, lookupAssoc m "_type" = some (.str t) → lookupAssoc m "_match" = some v →
      (∀ s, ¬ (v = .str s)) → lookupAssoc tys t = none →
      compileMappingFuel flt pc (fuel + 1) attr m rl tys = .error (.matchNotString t)) := by
  refine ⟨?_, ?_, ?_, ?_, ?_⟩
  · intro h0
    simp only [compileMappingFuel, h0]
  · intro v h0 hv
    cases v with
    | str s => exact absurd rfl (hv s)
    | dict d => simp [compileMappingFuel, h0]
    | list l => simp [compileMappingFuel, h0]
    | other => simp [compileMappingFuel, h0]
  · intro t h0 hm
    simp [compileMappingFuel, h0, hm]
  · intro t hid h0 hm hdup
    have hm2 : (lookupAssoc m "_match").isNone = false := by
      cases hmm : lookupAssoc m "_match" with
      | none => exact absurd hmm hm
      | some v => rfl
    simp [compileMappingFuel, h0, hm2, hdup]
  · intro t v h0 hm hv hdup
    have hm2 : (lookupAssoc m "_match").isNone = false := by rw [hm]; rfl
    cases v with
    | str s => exact absurd rfl (hv s)
    | dict d => simp [compileMappingFuel, h0, hm2, hdup, hm]
    | list l => simp [compileMappingFuel, h0, hm2, hdup, hm]
    | other => simp [compileMappingFuel, h0, hm2, hdup, hm]

theorem c8_shape_checks_amended_witness :
    compileMappingFuel [] exPc 1 none [] true [] = .error .missingType ∧
    compileMappingFuel [] exPc 1 none [("_type", .other)] true [] = .error .typeNotString ∧
    compileMappingFuel [] exPc 1 none [("_type", .str "a")] true [] =
      .error (.missingMatch "a") ∧
    compileMappingFuel [] exPc 1 none [("_type", .str "a"), ("_match", .str "x")] true
      [("a", true)] = .error (.duplicateType "a") ∧
    compileMappingFuel [] exPc 1 none [("_type", .str "a"), ("_match", .other)] true [] =
      .error (.matchNotString "a") := by
  refine ⟨?_, ?_, ?_, ?_, ?_⟩
  · exact (c8_shape_checks_amended [] exPc 0 none true [] []).1 rfl
  · exact (c8_shape_checks_amended [] exPc 0 none true [] [("_type", .other)]).2.1
      .other rfl (fun s h => RawValue.noConfusion h)
  · exact (c8_shape_checks_amended [] exPc 0 none true [] [("_type", .str "a")]).2.2.1
      "a" rfl rfl
  · exact (c8_shape_checks_amended [] exPc 0 none true [("a", true)]
      [("_type", .str "a"), ("_match", .str "x")]).2.2.2.1
      "a" true rfl (fun h => Option.noConfusion h) rfl
  · exact (c8_shape_checks_amended [] exPc 0 none true []
      [("_type", .str "a"), ("_match", .other)]).2.2.2.2
      "a" .other rfl rfl (fun s h => RawValue.noConfusion h) rfl

/-- C9: when the compiled path matches exactly one element whose text is
null (an empty element such as `<b/>`), the collapse renders the null text
with `six.text_type`, so the collapsed value is the literal string `"None"`,
not null: a `string` field yields the string `"None"`, and an `int` field
fails with `Invalid literal for int: "None"` instead of returning null. -/
theorem c9_none_text_literal (flt : Filters) (fuel : Nat) (attr : String)
    (st : LState) (acc : List Value) (el : Element) (e : Element) (xp : XPathFn)
    (ht : e.text = none) (hx : xp el = .nodeset [.elem e]) :
    getString el (xp el) = .ok (some "None") ∧
    engineQ flt (fuel + 1) (.xpathQ attr "string" xp) st acc el =
      .ok (.str "None", st, acc) ∧
    engineQ flt (fuel + 1) (.xpathQ attr "int" xp) st acc el =
      .error (mkErr el (.invalidLiteral "int" "None")) ∧
    pyParseInt "None" = none := by
  have hg : getString el (xp el) = .ok (some "None") := by
    rw [hx]
    simp only [getString, renderNode, ht]
    rw [show pyStrip "None" = "None" from by decide]
  refine ⟨hg, ?_, ?_, by decide⟩
  · simp [engineQ, xpathRun, hg, optToValue]
  · have hc : convertBuiltin "int" "None" = none := by
      have hp : pyParseInt "None" = none := by decide
      simp [convertBuiltin, hp]
    simp only [engineQ,
      xpathRun_builtin flt "int" (by decide) rfl xp st el (some "None") hg, hc]

theorem c9_none_text_literal_witness :
    engineQ [] 1 (.xpathQ "a" "string" (fun _ => .nodeset [.elem ⟨"b", 5, none⟩])) ⟨[]⟩ []
      ⟨"e", 1, none⟩ = .ok (.str "None", ⟨[]⟩, []) ∧
    engineQ [] 1 (.xpathQ "a" "int" (fun _ => .nodeset [.elem ⟨"b", 5, none⟩])) ⟨[]⟩ []
      ⟨"e", 1, none⟩ = .error (mkErr ⟨"e", 1, none⟩ (.invalidLiteral "int" "None")) := by
  have h := c9_none_text_literal [] 0 "a" ⟨[]⟩ [] ⟨"e", 1, none⟩ ⟨"b", 5, none⟩
    (fun _ => .nodeset [.elem ⟨"b", 5, none⟩]) rfl rfl
  exact ⟨h.2.1, h.2.2.1⟩

/-- Success test for `Except` results whose payload carries functions. -/
def isOkB {ε α : Type} : Except ε α → Bool
  | .ok _ => true
  | .error _ => false

/-- The C10 counterexample specification: the nested mapping under `b`
declares the same `_type` `"a"` as its enclosing specification, and the
later field `c` then references `"a"` — the enclosing type's own name. -/
def c10Spec : RawMapping :=
  [("_type", .str "a"), ("_match", .str "m"),
   ("b", .dict [("_type", .str "a"), ("_match", .str "n"), ("_id", .str "@id")]),
   ("c", .str "a: @x")]

/-- C10 counterexample: a field query whose kind names the specification's
own `_type` does not always fail with `Unknown value type`.  The enclosing
type is registered only after its fields, so a nested specification passes
the duplicate-type check while claiming the same name; the later sibling
field `"c" : "a: @x"` then finds `"a"` in the index and compilation
succeeds. -/
theorem c10_self_reference_counterexample :
    isOkB (compileMappingFuel [] exPc 2 none c10Spec true []) = true ∧
    compileMappingFuel [] exPc 2 none c10Spec true [] ≠
      .error (.unknownValueType "a" "c" "a") := by
  constructor
  · rfl
  · intro h
    have hk : isOkB (compileMappingFuel [] exPc 2 none c10Spec true []) = true := rfl
    rw [h] at hk
    exact Bool.noConfusion hk

/-- C10 (amended): a compiled type is registered in the type index only
after all of its field queries, nested specifications included: on success
the final index is the field-extended index with the mapping's own type
written last (appended at the end when no nested specification already
claimed that name).  Consequently a field query whose kind names the
specification's own `_type`, or the `_type` of an enclosing specification,
fails with `Unknown value type` — unless a nested specification compiled
earlier declares that very type name, in which case the duplicate check
(run against an index not yet containing the enclosing type) lets the
nested mapping claim it and the reference compiles against the nested type
(see the counterexample). -/
theorem c10_registration_after_fields_amended (flt : Filters) (pc : PathCompiler)
    (fuel : Nat) (attr : Option String) (rl : Bool) (tys : TyIdx)
    (t ms q p : String)
    (hq : parseQuery q = (some t, p))
    (hbt : builtinKinds.contains t = false)
    (hft : lookupAssoc flt t = none)
    (htys : lookupAssoc tys t = none) :
    (∀ (m : RawMapping) (cm : CQuery) (tys1 : TyIdx),
      compileMappingFuel flt pc (fuel + 1) attr m rl tys = .ok (cm, tys1) →
      ∃ mtype qs tysMid,
        lookupAssoc m "_type" = some (.str mtype) ∧
        compileFieldsGo (compileMappingFuel flt pc fuel) flt pc mtype (sortFields m) tys [] =
          .ok (qs, tysMid) ∧
        tys1 = updateAssoc tysMid mtype (lookupAssoc m "_id").isSome ∧
        (lookupAssoc tysMid mtype = none →
          tys1 = tysMid ++ [(mtype, (lookupAssoc m "_id").isSome)])) ∧
    (compileMappingFuel flt pc (fuel + 1) attr
        [("_type", .str t), ("_match", .str ms), ("fld", .str q)] rl tys =
      .error (.unknownValueType t "fld" t)) ∧
    (∀ u ms2, lookupAssoc tys u = none →
      compileMappingFuel flt pc (fuel + 2) attr
        [("_type", .str t), ("_match", .str ms),
         ("sub", .dict [("_type", .str u), ("_match", .str ms2), ("fld", .str q)])] rl tys =
      .error (.unknownValueType t "fld" u)) := by
  refine ⟨?_, ?_, ?_⟩
  · intro m cm tys1 h
    simp only [compileMappingFuel] at h
    cases h0 : lookupAssoc m "_type" with
    | none =>
      simp only [h0] at h
      exact Except.noConfusion h
    | some tv =>
      cases tv with
      | dict d =>
        simp only [h0] at h
        exact Except.noConfusion h
      | list l =>
        simp only [h0] at h
        exact Except.noConfusion h
      | other =>
        simp only [h0] at h
        exact Except.noConfusion h
      | str mtype =>
        simp only [h0] at h
        by_cases hmn : (lookupAssoc m "_match").isNone = true
        · rw [if_pos hmn] at h
          exact Except.noConfusion h
        · rw [if_neg hmn] at h
          by_cases hdup : (lookupAssoc tys mtype).isSome = true
          · rw [if_pos hdup] at h
            exact Except.noConfusion h
          · rw [if_neg hdup] at h
            cases hmm : lookupAssoc m "_match" with
            | none =>
              simp only [hmm] at h
              exact Except.noConfusion h
            | some mv =>
              cases mv with
              | dict d =>
                simp only [hmm] at h
                exact Except.noConfusion h
              | list l =>
                simp only [hmm] at h
                exact Except.noConfusion h
              | other =>
                simp only [hmm] at h
                exact Except.noConfusion h
              | str ms2 =>
                simp only [hmm] at h
                cases hcf : compileFieldsGo (compileMappingFuel flt pc fuel) flt pc mtype
                    (sortFields m) tys [] with
                | error e =>
                  simp only [hcf] at h
                  exact Except.noConfusion h
                | ok pr =>
                  obtain ⟨qs, tysMid⟩ := pr
                  simp only [hcf] at h
                  cases h
                  exact ⟨mtype, qs, tysMid, rfl, hcf, rfl,
                    fun hnone => updateAssoc_of_not_mem tysMid mtype _ hnone⟩
  · have hsort : sortFields [("_type", RawValue.str t), ("_match", RawValue.str ms),
        ("fld", RawValue.str q)] =
        [("_match", RawValue.str ms), ("_type", RawValue.str t),
         ("fld", RawValue.str q)] := rfl
    have hbt2 : ¬ t ∈ builtinKinds := by simpa using hbt
    simp [compileMappingFuel, hsort, compileFieldsGo, compileQuery, lookupAssoc,
      hq, hbt, hbt2, hft, htys]
  · intro u ms2 hu
    have hsort : sortFields [("_type", RawValue.str t), ("_match", RawValue.str ms),
        ("sub", RawValue.dict [("_type", RawValue.str u), ("_match", RawValue.str ms2),
          ("fld", RawValue.str q)])] =
        [("_match", RawValue.str ms), ("_type", RawValue.str t),
         ("sub", RawValue.dict [("_type", RawValue.str u), ("_match", RawValue.str ms2),
           ("fld", RawValue.str q)])] := rfl
    have hsort2 : sortFields [("_type", RawValue.str u), ("_match", RawValue.str ms2),
        ("fld", RawValue.str q)] =
        [("_match", RawValue.str ms2), ("_type", RawValue.str u),
         ("fld", RawValue.str q)] := rfl
    have hbt2 : ¬ t ∈ builtinKinds := by simpa using hbt
    simp [compileMappingFuel, hsort, hsort2, compileFieldsGo, compileQuery, lookupAssoc,
      hq, hbt, hbt2, hft, htys, hu]

theorem c10_registration_after_fields_amended_witness :
    (∃ mtype qs tysMid,
      lookupAssoc [("_type", RawValue.str "w"), ("_match", RawValue.str "m")] "_type" =
        some (.str mtype) ∧
      compileFieldsGo (compileMappingFuel [] exPc 0) [] exPc mtype
        (sortFields [("_type", RawValue.str "w"), ("_match", RawValue.str "m")]) [] [] =
        .ok (qs, tysMid) ∧
      [("w", false)] = updateAssoc tysMid mtype
        (lookupAssoc [("_type", RawValue.str "w"), ("_match", RawValue.str "m")]
          "_id").isSome ∧
      (lookupAssoc tysMid mtype = none →
        [("w", false)] = tysMid ++ [(mtype,
          (lookupAssoc [("_type", RawValue.str "w"), ("_match", RawValue.str "m")]
            "_id").isSome)])) ∧
    compileMappingFuel [] exPc 1 none
      [("_type", .str "zzz"), ("_match", .str "m"), ("fld", .str "zzz: @x")] true [] =
      .error (.unknownValueType "zzz" "fld" "zzz") ∧
    compileMappingFuel [] exPc 2 none
      [("_type", .str "zzz"), ("_match", .str "m"),
       ("sub", .dict [("_type", .str "u"), ("_match", .str "n"),
         ("fld", .str "zzz: @x")])] true [] =
      .error (.unknownValueType "zzz" "fld" "u") := by
  have h := c10_registration_after_fields_amended [] exPc 0 none true [] "zzz" "m"
    "zzz: @x" "@x" (by decide) rfl rfl rfl
  exact ⟨h.1 [("_type", RawValue.str "w"), ("_match", RawValue.str "m")]
    (.mappingQ none "w" (compileMatch exPc "m") false true 1 []) [("w", false)] rfl,
    h.2.1, h.2.2 "u" "n" rfl⟩
